import Mathlib

/-!
Shallow embedding of the learning-management backend (Django app `core`,
`lookups`, `users`): models (`core/models.py`), slug assignment
(`core/mixins.py`), the `LessonProgress` pre-save signal
(`core/signals.py`), serializers (`core/serializers.py`) and view-level
behaviour (`core/views.py`).  Database tables are lists of records; machine
integers are `Nat`; timestamps are abstract `Nat` clock values; nullable
columns are `Option`; money/percentages are `ℚ`.
-/

set_option maxRecDepth 8000

/-- A row of the `core.Course` table (`core/models.py:5`).  Many-to-many
columns (`tags`, `topics`, `instructors`) are lists of foreign keys. -/
structure CourseRec where
  id : Nat
  name : String
  slug : String
  description : String
  is_published : Bool
  order : Nat
  created_at : Nat
  updated_at : Nat
  tags : List Nat
  topics : List Nat
  instructors : List Nat
deriving DecidableEq, Repr

/-- A row of the `core.Module` table (`core/models.py:33`): `course` is the
foreign key to `Course`, cascade-deleted with it. -/
structure ModuleRec where
  id : Nat
  course : Nat
  name : String
  slug : String
  description : String
  order : Nat
  created_at : Nat
  updated_at : Nat
deriving DecidableEq, Repr

/-- A row of the `core.Lesson` table (`core/models.py:40`): `module` is the
foreign key to `Module`, cascade-deleted with it. -/
structure LessonRec where
  id : Nat
  module : Nat
  name : String
  slug : String
  content : String
  duration_seconds : Nat
  order : Nat
  created_at : Nat
  updated_at : Nat
deriving DecidableEq, Repr

/-- A row of the `core.Enrollment` table (`core/models.py:48`). -/
structure EnrollmentRec where
  id : Nat
  course : Nat
  user : Nat
  enrolled_at : Nat
deriving DecidableEq, Repr

/-- A row of the `core.LessonProgress` table (`core/models.py:62`).  The
`user` column is modelled as `Option Nat` so that the view's attempt to
write `user=None` (`core/views.py:115`) is expressible; the column itself is
declared NOT NULL in the source (no `null=True` on the foreign key). -/
structure ProgressRec where
  id : Nat
  user : Option Nat
  lesson : Nat
  completed : Bool
  completed_at : Option Nat
  created_at : Nat
deriving DecidableEq, Repr

/-- A row of the `auth.User` table (identity is external; only the fields
exposed by `users/serializers.py:5` are kept). -/
structure UserRec where
  id : Nat
  username : String
  email : String
  first_name : String
  last_name : String
deriving DecidableEq, Repr

/-- The relational store: one list per table. -/
structure Db where
  courses : List CourseRec
  modules : List ModuleRec
  lessons : List LessonRec
  enrollments : List EnrollmentRec
  progresses : List ProgressRec
  users : List UserRec
deriving DecidableEq, Repr

/-- Errors surfaced to API callers (§7 of the spec): `serverError` stands
for an unhandled exception such as a violated NOT NULL constraint. -/
inductive ApiError where
  | notFound
  | unauthorized
  | conflict
  | serverError
deriving DecidableEq, Repr

/-- Primary-key lookup on `Course` (`NotFound` when absent). -/
def retrieveCourse (db : Db) (i : Nat) : Except ApiError CourseRec :=
  match db.courses.find? (fun c => c.id == i) with
  | some c => .ok c
  | none => .error .notFound

/-- Primary-key lookup on `Module`. -/
def retrieveModule (db : Db) (i : Nat) : Except ApiError ModuleRec :=
  match db.modules.find? (fun m => m.id == i) with
  | some m => .ok m
  | none => .error .notFound

/-- Primary-key lookup on `Lesson`. -/
def retrieveLesson (db : Db) (i : Nat) : Except ApiError LessonRec :=
  match db.lessons.find? (fun l => l.id == i) with
  | some l => .ok l
  | none => .error .notFound

/-- Primary-key lookup on `Enrollment`. -/
def retrieveEnrollment (db : Db) (i : Nat) : Except ApiError EnrollmentRec :=
  match db.enrollments.find? (fun e => e.id == i) with
  | some e => .ok e
  | none => .error .notFound

/-- Primary-key lookup on `LessonProgress`. -/
def retrieveProgress (db : Db) (i : Nat) : Except ApiError ProgressRec :=
  match db.progresses.find? (fun p => p.id == i) with
  | some p => .ok p
  | none => .error .notFound

/-- The join test `lesson.module.course == c` — the lookup `module__course`
used by `Course.total_lessons` and `Course.completion_for`
(`core/models.py:22,29`). -/
def lessonInCourse (db : Db) (l : LessonRec) (c : Nat) : Bool :=
  db.modules.any (fun m => m.id == l.module && m.course == c)

/-- The method `Course.total_lessons` (`core/models.py:21`):
`Lesson.objects.filter(module__course=self).count()`. -/
def total_lessons (db : Db) (c : Nat) : Nat :=
  (db.lessons.filter (fun l => lessonInCourse db l c)).length

/-- The count inside `Course.completion_for` (`core/models.py:28`):
`LessonProgress.objects.filter(user=user, lesson__module__course=self,
completed=True).count()`. -/
def completedCount (db : Db) (c : Nat) (u : Option Nat) : Nat :=
  (db.progresses.filter (fun p =>
    p.user == u && p.completed &&
      db.lessons.any (fun l => l.id == p.lesson && lessonInCourse db l c))).length

/-- Round a rational to the nearest integer, ties to even: the semantics of
Python's built-in `round`. -/
def roundHalfEven (q : ℚ) : ℤ :=
  let f : ℤ := ⌊q⌋
  let r : ℚ := q - f
  if r < 1/2 then f
  else if 1/2 < r then f + 1
  else if f % 2 = 0 then f else f + 1

/-- Python `round(x, 2)`: round to two decimal places, ties to even. -/
def round2 (q : ℚ) : ℚ :=
  (roundHalfEven (q * 100) : ℚ) / 100

/-- The method `Course.completion_for(user)` (`core/models.py:24`): `0.0` when the
course has no lessons, otherwise `round((completed / total) * 100, 2)`. -/
def completion_for (db : Db) (c : Nat) (u : Option Nat) : ℚ :=
  if total_lessons db c = 0 then 0
  else round2 (((completedCount db c u : ℚ) / (total_lessons db c : ℚ)) * 100)

/-- The `pre_save` receiver `set_completed_at_for_progress`
(`core/signals.py:6`): if `completed` and no timestamp yet, stamp `now`;
if not `completed` and a timestamp is present, clear it. -/
def set_completed_at_for_progress (p : ProgressRec) (now : Nat) : ProgressRec :=
  if p.completed then
    if p.completed_at = none then { p with completed_at := some now } else p
  else
    if p.completed_at ≠ none then { p with completed_at := none } else p

/-- Saving a `LessonProgress` (`instance.save()`): Django fires the `pre_save`
signal, then inserts (fresh pk) or updates (existing pk) the row. -/
def saveProgress (db : Db) (p : ProgressRec) (now : Nat) : Db :=
  let q := set_completed_at_for_progress p now
  if db.progresses.any (fun r => r.id == q.id) then
    { db with progresses := db.progresses.map (fun r => if r.id == q.id then q else r) }
  else
    { db with progresses := db.progresses ++ [q] }

/-- A fresh primary key for an insert into `LessonProgress`. -/
def freshProgressId (db : Db) : Nat :=
  db.progresses.foldr (fun p acc => max acc (p.id + 1)) 0

/-- The upsert `LessonProgress.objects.update_or_create(user=u, lesson=lessonId,
defaults={"completed": True})` (`core/views.py:114`).  The lookup
`user=None` compiles to `user IS NULL`, so the find uses `Option`
equality.  On the create path, inserting `user=NULL` violates the NOT NULL
constraint on the foreign key (`core/models.py:63` has no `null=True`), so
the transaction aborts with a server error and nothing is written. -/
def update_or_create_progress (db : Db) (u : Option Nat) (lessonId : Nat)
    (now : Nat) : Except ApiError Db :=
  match db.progresses.find? (fun p => p.user == u && p.lesson == lessonId) with
  | some p => .ok (saveProgress db { p with completed := true } now)
  | none =>
    match u with
    | none => .error .serverError
    | some _ =>
      .ok (saveProgress db
        { id := freshProgressId db, user := u, lesson := lessonId,
          completed := true, completed_at := none, created_at := now } now)

/-- The action `LessonViewSet.mark_complete` (`core/views.py:105`): resolve the lesson
(404 when absent), then upsert a `LessonProgress` with `user=None` —
the request's user (`requestUser`) is never consulted — and answer
`{"status": "completed"}`.  An error aborts the transaction, leaving the
store unchanged. -/
def mark_complete (db : Db) (requestUser : Option Nat) (lessonId : Nat)
    (now : Nat) : Except ApiError (Db × String) :=
  match db.lessons.find? (fun l => l.id == lessonId) with
  | none => .error .notFound
  | some _ =>
    match update_or_create_progress db none lessonId now with
    | .error e => .error e
    | .ok db2 => .ok (db2, "completed")

/-- Is module `mid` owned by course `c` (and so deleted with it)? -/
def deadModuleB (db : Db) (c mid : Nat) : Bool :=
  db.modules.any (fun m => m.id == mid && m.course == c)

/-- Is lesson `lid` owned (through its module) by course `c`? -/
def deadLessonB (db : Db) (c lid : Nat) : Bool :=
  db.lessons.any (fun l => l.id == lid && deadModuleB db c l.module)

/-- Deleting a `Course` with Django `on_delete=CASCADE`
(`core/models.py:34,41,49,64`): removing a course removes its modules,
their lessons, the enrollments referencing the course and the progress
rows referencing those lessons. -/
def deleteCourse (db : Db) (c : Nat) : Except ApiError Db :=
  if db.courses.any (fun x => x.id == c) then
    .ok { db with
      courses := db.courses.filter (fun x => x.id != c),
      modules := db.modules.filter (fun m => m.course != c),
      lessons := db.lessons.filter (fun l => !deadModuleB db c l.module),
      enrollments := db.enrollments.filter (fun e => e.course != c),
      progresses := db.progresses.filter (fun p => !deadLessonB db c p.lesson) }
  else .error .notFound

/-- Referential sanity of the store: primary keys are unique per table. -/
def DbWf (db : Db) : Prop :=
  (db.courses.map (fun c => c.id)).Nodup ∧
  (db.modules.map (fun m => m.id)).Nodup ∧
  (db.lessons.map (fun l => l.id)).Nodup ∧
  (db.enrollments.map (fun e => e.id)).Nodup ∧
  (db.progresses.map (fun p => p.id)).Nodup

instance (db : Db) : Decidable (DbWf db) := by
  unfold DbWf; infer_instance

/-- The whitespace class `\s` of Python's `re` module, ASCII range. -/
def slugSpaceChar (c : Char) : Bool :=
  c = ' ' || c = '\t' || c = '\n' || c = '\r' || c = '\x0b' || c = '\x0c'

/-- A character kept by `django.utils.text.slugify` after lowercasing:
the regex deletes everything matching `[^\w\s-]`, so word characters,
whitespace and hyphens survive (ASCII model). -/
def slugKeepChar (c : Char) : Bool :=
  c.isAlphanum || c = '_' || c = '-' || slugSpaceChar c

/-- A separator for slugify's final rewrite `[-\s]+ → "-"`. -/
def slugSepChar (c : Char) : Bool :=
  c = '-' || slugSpaceChar c

/-- Replace every run of separators by a single hyphen. -/
def collapseSep (cs : List Char) : List Char :=
  cs.foldr
    (fun c acc =>
      if slugSepChar c then
        if acc.head? = some '-' then acc else '-' :: acc
      else c :: acc)
    []

/-- Python `str.strip("-_")` on a character list. -/
def stripDashUnderscore (cs : List Char) : List Char :=
  ((cs.dropWhile (fun c => c = '-' || c = '_')).reverse.dropWhile
      (fun c => c = '-' || c = '_')).reverse

/-- Django `django.utils.text.slugify` restricted to ASCII input: lowercase,
delete `[^\w\s-]`, collapse `[-\s]+` to `-`, strip leading/trailing
`-` and `_`. -/
def slugify (s : String) : String :=
  String.mk (stripDashUnderscore (collapseSep
    ((s.data.map Char.toLower).filter slugKeepChar)))

/-- The `k`-th candidate tried by `SlugMixin.save` (`core/mixins.py:37`):
the base itself, then `base-2`, `base-3`, …. -/
def candidateAt (base : String) (k : Nat) : String :=
  if k = 0 then base else base ++ "-" ++ toString (k + 1)

/-- The collision loop of `SlugMixin.save` (`core/mixins.py:40`), tried
from candidate index `k` with the given fuel.  The Python loop is
unbounded; `taken.length + 1` steps always suffice because candidates are
pairwise distinct strings. -/
def firstFreeAux (base : String) (taken : List String) : Nat → Nat → String
  | 0, k => candidateAt base k
  | fuel + 1, k =>
    if taken.contains (candidateAt base k) then firstFreeAux base taken fuel (k + 1)
    else candidateAt base k

/-- The slug chosen against the set of slugs already present in the model's
table (the code's check is `Model.objects.filter(slug=candidate)` — all
rows of the model, not just the parent scope). -/
def assignSlug (taken : List String) (base : String) : String :=
  firstFreeAux base taken (taken.length + 1) 0

/-- The method `SlugMixin.save` (`core/mixins.py:32`) as a function from the model's
slug table (pk, slug) and the row being saved to the slug stored: an
already-set slug is kept; an empty source name leaves the slug empty;
otherwise the slugified name is truncated to 200 characters and suffixed
until it collides with no other row of the model. -/
def slug_mixin_save (table : List (Nat × String)) (pk : Nat)
    (slug name : String) : String :=
  if slug = "" then
    if name = "" then slug
    else
      assignSlug ((table.filter (fun e => e.1 != pk)).map (fun e => e.2))
        ((slugify name).take 200)
  else slug

/-- Uniqueness check the spec prescribes for `Module`: only slugs of
sibling modules of the same course count as collisions.  Second definition
written from the spec's words (§3, §4.1 "unique in the entity's uniqueness
scope"), to be compared with the code's `slug_mixin_save`. -/
def module_slug_save_scoped (rows : List ModuleRec) (pk courseId : Nat)
    (slug name : String) : String :=
  slug_mixin_save
    ((rows.filter (fun r => r.course == courseId)).map (fun r => (r.id, r.slug)))
    pk slug name

/-- The method `SlugMixin.save` for a `Module` as the code runs it: the collision
table is the whole `Module` table, every course confounded
(`core/mixins.py:40`). -/
def module_slug_save_code (rows : List ModuleRec) (pk : Nat)
    (slug name : String) : String :=
  slug_mixin_save (rows.map (fun r => (r.id, r.slug))) pk slug name

/-- Insert into a sorted list, before the first element not below `a`. -/
def insertLe (le : α → α → Bool) (a : α) : List α → List α
  | [] => [a]
  | b :: bs => if le a b then a :: b :: bs else b :: insertLe le a bs

/-- Insertion sort by a boolean comparison. -/
def sortLe (le : α → α → Bool) : List α → List α
  | [] => []
  | a :: as => insertLe le a (sortLe le as)

/-- Sorting as in `ORDER BY order ASC` (ascending `Nat` key). -/
def sortByKey (key : α → Nat) (l : List α) : List α :=
  sortLe (fun a b => decide (key a ≤ key b)) l

/-- A serialized JSON value, as produced by the presentation layer. -/
inductive JVal where
  | s : String → JVal
  | n : Nat → JVal
  | q : ℚ → JVal
  | b : Bool → JVal
  | null : JVal
  | arr : List JVal → JVal
  | obj : List (String × JVal) → JVal

/-- The field list of `LessonSerializer` (`core/serializers.py:23`). -/
def lessonSerializerFields : List String :=
  ["id", "name", "slug", "content", "duration_seconds", "order",
   "created_at", "updated_at"]

/-- The field list of `ModuleSerializer` (`core/serializers.py:37`). -/
def moduleSerializerFields : List String :=
  ["id", "name", "slug", "description", "order", "lessons",
   "created_at", "updated_at"]

/-- The lesson field list the course queryset's prefetch hint names
(`core/views.py:22`, `Lesson.objects.only(...)`): it bounds the columns of
the prefetch SQL, not the serializer's output. -/
def courseQuerysetOnlyFields : List String :=
  ["id", "name", "slug", "order"]

/-- The `LessonSerializer` output (`core/serializers.py:20`): one key per
declared field. -/
def serializeLesson (l : LessonRec) : List (String × JVal) :=
  [("id", .n l.id), ("name", .s l.name), ("slug", .s l.slug),
   ("content", .s l.content), ("duration_seconds", .n l.duration_seconds),
   ("order", .n l.order), ("created_at", .n l.created_at),
   ("updated_at", .n l.updated_at)]

/-- The lessons of a module in default order (`Lesson.Meta` inherits
`ordering = ('order',)` from `OrderedMixin.Meta`, `core/models.py:45`). -/
def moduleLessons (db : Db) (m : ModuleRec) : List LessonRec :=
  sortByKey (fun l => l.order) (db.lessons.filter (fun l => l.module == m.id))

/-- The `ModuleSerializer` output (`core/serializers.py:32`): the declared
fields, with `lessons` nested through `LessonSerializer`. -/
def serializeModule (db : Db) (m : ModuleRec) : List (String × JVal) :=
  [("id", .n m.id), ("name", .s m.name), ("slug", .s m.slug),
   ("description", .s m.description), ("order", .n m.order),
   ("lessons", .arr ((moduleLessons db m).map (fun l => .obj (serializeLesson l)))),
   ("created_at", .n m.created_at), ("updated_at", .n m.updated_at)]

/-- The `UserSerializer` output (`users/serializers.py:5`). -/
def serializeUser (u : UserRec) : List (String × JVal) :=
  [("id", .n u.id), ("username", .s u.username), ("email", .s u.email),
   ("first_name", .s u.first_name), ("last_name", .s u.last_name)]

/-- The modules of a course in default order (`Module.Meta` inherits
`ordering = ('order',)`, `core/models.py:37`). -/
def courseModules (db : Db) (c : CourseRec) : List ModuleRec :=
  sortByKey (fun m => m.order) (db.modules.filter (fun m => m.course == c.id))

/-- The `CourseSerializer` output (`core/serializers.py:41`): the full course
shape — nested modules (hence nested lessons), expanded instructors,
tag/topic primary keys, computed `total_lessons`, and `completion_rate`
only for an authenticated request user (`core/serializers.py:68`). -/
def serializeCourse (db : Db) (c : CourseRec) (requestUser : Option Nat) :
    List (String × JVal) :=
  [("id", .n c.id), ("name", .s c.name), ("slug", .s c.slug),
   ("description", .s c.description), ("is_published", .b c.is_published),
   ("tags", .arr (c.tags.map .n)), ("topics", .arr (c.topics.map .n)),
   ("instructors", .arr ((db.users.filter (fun u => c.instructors.contains u.id)).map
      (fun u => .obj (serializeUser u)))),
   ("modules", .arr ((courseModules db c).map (fun m => .obj (serializeModule db m)))),
   ("total_lessons", .n (total_lessons db c.id)),
   ("completion_rate",
     match requestUser with
     | some u => .q (completion_for db c.id (some u))
     | none => .null),
   ("created_at", .n c.created_at), ("updated_at", .n c.updated_at)]

/-- The key lists of the nested lesson objects a module contributes to the
full course shape (`serializeModule`'s `lessons` entry). -/
def moduleNestedLessonKeys (db : Db) (m : ModuleRec) : List (List String) :=
  (moduleLessons db m).map (fun l => (serializeLesson l).map (fun kv => kv.1))

/-- The declared field list of `CourseDynamicSerializer`
(`core/serializers.py:84`). -/
def courseDynamicBaseFields : List String :=
  ["id", "name", "slug", "description", "modules"]

/-- The shaper `CourseDynamicSerializer.__init__` (`core/serializers.py:86`): the
`fields` kwarg, when present and truthy (a non-empty list), pops every
declared field outside it; otherwise the declared fields stand. -/
def courseDynamicFields (requested : Option (List String)) : List String :=
  match requested with
  | none => courseDynamicBaseFields
  | some fs =>
    if fs.isEmpty then courseDynamicBaseFields
    else courseDynamicBaseFields.filter (fun f => fs.contains f)

/-- The DRF default ordering of `CourseViewSet` (`core/views.py:30`). -/
def courseViewSetDefaultOrdering : List String := ["-created_at"]

/-- The DRF default ordering of `ModuleViewSet` (`core/views.py:60`). -/
def moduleViewSetDefaultOrdering : List String := ["order"]

/-- The DRF default ordering of `LessonViewSet` (`core/views.py:88`). -/
def lessonViewSetDefaultOrdering : List String := ["order"]

/-- The `GET /courses` default listing: `order_by("-created_at")`
(`core/views.py:30`), i.e. newest first. -/
def listCourses (db : Db) : List CourseRec :=
  sortLe (fun a b => decide (b.created_at ≤ a.created_at)) db.courses

/-- The `GET /modules` default listing: `order_by("order")` (`core/views.py:60`). -/
def listModules (db : Db) : List ModuleRec :=
  sortByKey (fun m => m.order) db.modules

/-- The `GET /lessons` default listing: `order_by("order")` (`core/views.py:88`). -/
def listLessons (db : Db) : List LessonRec :=
  sortByKey (fun l => l.order) db.lessons

/-- A course row with only identity, order and clock fields filled. -/
def mkCourse (i nm ord created : Nat) : CourseRec :=
  { id := i, name := toString nm, slug := toString nm, description := "",
    is_published := false, order := ord, created_at := created,
    updated_at := created, tags := [], topics := [], instructors := [] }

/-- A module row with only identity fields filled. -/
def mkModule (i c ord : Nat) : ModuleRec :=
  { id := i, course := c, name := toString i, slug := toString i,
    description := "", order := ord, created_at := 0, updated_at := 0 }

/-- A lesson row with only identity fields filled. -/
def mkLesson (i m ord : Nat) : LessonRec :=
  { id := i, module := m, name := toString i, slug := toString i,
    content := "", duration_seconds := 60, order := ord,
    created_at := 0, updated_at := 0 }

/-- A course with zero lessons. -/
def dbZero : Db :=
  { courses := [mkCourse 1 1 0 1], modules := [], lessons := [],
    enrollments := [], progresses := [], users := [] }

/-- One course, one module, four lessons, one completed by user 1. -/
def db4 : Db :=
  { courses := [mkCourse 1 1 0 1], modules := [mkModule 1 1 0],
    lessons := [mkLesson 1 1 0, mkLesson 2 1 1, mkLesson 3 1 2, mkLesson 4 1 3],
    enrollments := [],
    progresses := [{ id := 1, user := some 1, lesson := 1, completed := true,
                     completed_at := some 5, created_at := 5 }],
    users := [] }

/-- One course, one module, three lessons, two completed by user 1. -/
def db3 : Db :=
  { courses := [mkCourse 1 1 0 1], modules := [mkModule 1 1 0],
    lessons := [mkLesson 1 1 0, mkLesson 2 1 1, mkLesson 3 1 2],
    enrollments := [],
    progresses := [{ id := 1, user := some 1, lesson := 1, completed := true,
                     completed_at := some 5, created_at := 5 },
                   { id := 2, user := some 1, lesson := 2, completed := true,
                     completed_at := some 6, created_at := 6 }],
    users := [] }

/-- Evaluation of `round2` when the fractional part of `q * 100` above the
integer `n` stays below one half. -/
theorem round2_eval_lo (q : ℚ) (n : ℤ) (h1 : (n : ℚ) ≤ q * 100)
    (h2 : q * 100 - (n : ℚ) < 1 / 2) : round2 q = (n : ℚ) / 100 := by
  have hfl : ⌊q * 100⌋ = n := by
    rw [Int.floor_eq_iff]
    exact ⟨h1, by linarith⟩
  simp only [round2, roundHalfEven, hfl]
  rw [if_pos h2]

/-- Evaluation of `round2` when the fractional part of `q * 100` above the
integer `n` exceeds one half. -/
theorem round2_eval_hi (q : ℚ) (n : ℤ) (h1 : (n : ℚ) ≤ q * 100)
    (h1' : q * 100 < (n : ℚ) + 1) (h2 : 1 / 2 < q * 100 - (n : ℚ)) :
    round2 q = ((n + 1 : ℤ) : ℚ) / 100 := by
  have hfl : ⌊q * 100⌋ = n := by
    rw [Int.floor_eq_iff]
    exact ⟨h1, by linarith⟩
  simp only [round2, roundHalfEven, hfl]
  rw [if_neg (by linarith), if_pos h2]

/-- C1: `completionPercentage(user, course)` returns exactly `0` for a
course with zero lessons, and otherwise `round((completed / total) * 100)`
to 2 decimal places, where `total` counts the course's lessons across all
modules and `completed` counts the user's completed progress rows under the
course; 4 lessons with 1 completed give `25` and 3 lessons with 2 completed
give `66.67`. -/
theorem C1_completion_percentage :
    (∀ db c u, total_lessons db c = 0 → completion_for db c u = 0) ∧
    (∀ db c u, total_lessons db c ≠ 0 →
      completion_for db c u =
        round2 (((completedCount db c u : ℚ) / (total_lessons db c : ℚ)) * 100)) ∧
    completion_for dbZero 1 (some 1) = 0 ∧
    completion_for db4 1 (some 1) = 25 ∧
    completion_for db3 1 (some 1) = 6667 / 100 := by
  refine ⟨?_, ?_, ?_, ?_, ?_⟩
  · intro db c u h
    simp [completion_for, h]
  · intro db c u h
    simp [completion_for, h]
  · have h1 : total_lessons dbZero 1 = 0 := by decide
    simp [completion_for, h1]
  · have h1 : total_lessons db4 1 = 4 := by decide
    have h2 : completedCount db4 1 (some 1) = 1 := by decide
    simp only [completion_for, h1, h2]
    norm_num
    rw [round2_eval_lo _ 2500 (by norm_num) (by norm_num)]
    norm_num
  · have h1 : total_lessons db3 1 = 3 := by decide
    have h2 : completedCount db3 1 (some 1) = 2 := by decide
    simp only [completion_for, h1, h2]
    norm_num
    rw [round2_eval_hi _ 6666 (by norm_num) (by norm_num) (by norm_num)]
    norm_num

/-- C1 witness: both hypothesised branches of `C1_completion_percentage`,
discharged on the concrete stores `dbZero` and `db4`. -/
theorem C1_completion_percentage_witness :
    completion_for dbZero 1 (some 1) = 0 ∧
    completion_for db4 1 (some 1) =
      round2 (((completedCount db4 1 (some 1) : ℚ) /
        (total_lessons db4 1 : ℚ)) * 100) :=
  ⟨C1_completion_percentage.1 dbZero 1 (some 1) (by decide),
   C1_completion_percentage.2.1 db4 1 (some 1) (by decide)⟩

/-- After the `pre_save` signal runs, `completed_at` is populated exactly
when `completed` is set. -/
theorem signal_completed_at_isSome (p : ProgressRec) (now : Nat) :
    ((set_completed_at_for_progress p now).completed_at).isSome =
      (set_completed_at_for_progress p now).completed := by
  cases hc : p.completed <;> cases hca : p.completed_at <;>
    simp [set_completed_at_for_progress, hc, hca]

/-- Every stored `LessonProgress` row has `completed_at` non-null exactly
when `completed` is true. -/
def ProgressInvariant (db : Db) : Prop :=
  ∀ r ∈ db.progresses, r.completed_at.isSome = r.completed

instance (db : Db) : Decidable (ProgressInvariant db) := by
  unfold ProgressInvariant; infer_instance

/-- C2: every write of a `LessonProgress` goes through the `pre_save`
signal, so the written record satisfies `completed_at ≠ null ↔ completed`;
a write that sets `completed := false` clears `completed_at` to null in the
same write; and a store satisfying the invariant still satisfies it after
any save. -/
theorem C2_completed_at_sync :
    (∀ p now, ((set_completed_at_for_progress p now).completed_at ≠ none ↔
      (set_completed_at_for_progress p now).completed = true)) ∧
    (∀ (p : ProgressRec) (now : Nat),
      (set_completed_at_for_progress { p with completed := false } now).completed_at
        = none) ∧
    (∀ db p now, ProgressInvariant db → ProgressInvariant (saveProgress db p now)) := by
  refine ⟨?_, ?_, ?_⟩
  · intro p now
    rw [Option.ne_none_iff_isSome, signal_completed_at_isSome]
  · intro p now
    cases hca : p.completed_at <;>
      simp [set_completed_at_for_progress, hca]
  · intro db p now h r hr
    simp only [saveProgress] at hr
    split at hr
    · rcases List.mem_map.1 hr with ⟨x, hx, hfx⟩
      by_cases hid : (x.id == (set_completed_at_for_progress p now).id) = true
      · rw [if_pos hid] at hfx
        rw [← hfx]
        exact signal_completed_at_isSome p now
      · rw [if_neg hid] at hfx
        rw [← hfx]
        exact h x hx
    · rcases List.mem_append.1 hr with hr0 | hr1
      · exact h r hr0
      · rw [List.mem_singleton.1 hr1]
        exact signal_completed_at_isSome p now

/-- C2 witness: the preservation clause of `C2_completed_at_sync` applied
to the concrete store `db4`, whose invariant is discharged by computation. -/
theorem C2_completed_at_sync_witness :
    ProgressInvariant db4 ∧
    ProgressInvariant (saveProgress db4
      { id := 2, user := some 1, lesson := 2, completed := true,
        completed_at := none, created_at := 9 } 9) :=
  ⟨by decide, C2_completed_at_sync.2.2 db4
    { id := 2, user := some 1, lesson := 2, completed := true,
      completed_at := none, created_at := 9 } 9 (by decide)⟩

/-- One course, one module, one lesson, one registered user, no progress. -/
def dbOne : Db :=
  { courses := [mkCourse 1 1 0 1], modules := [mkModule 1 1 0],
    lessons := [mkLesson 1 1 0], enrollments := [], progresses := [],
    users := [{ id := 7, username := "u7", email := "u7@example.com",
                first_name := "U", last_name := "Seven" }] }

/-- C3 (code bug): the mark-complete action never consults the caller's
identity.  On `dbOne` an anonymous invocation is not rejected with
`Unauthorized`: the view upserts with `user=None`, the non-nullable foreign
key aborts the insert, and the call surfaces a server error — the same
outcome an authenticated caller gets, since `request.user` is ignored. -/
theorem C3_mark_complete_never_unauthorized :
    mark_complete dbOne none 1 5 = Except.error ApiError.serverError ∧
    ApiError.serverError ≠ ApiError.unauthorized ∧
    mark_complete dbOne (some 7) 1 5 = Except.error ApiError.serverError :=
  ⟨rfl, by decide, rfl⟩

/-- C4 (code bug): because the upsert runs with `user=None` against a
non-nullable column, a mark-complete invocation on `dbOne` errors instead
of writing, so two successive invocations leave zero `LessonProgress` rows
for the lesson, not exactly one. -/
theorem C4_mark_complete_twice_writes_nothing :
    mark_complete dbOne (some 7) 1 5 = Except.error ApiError.serverError ∧
    mark_complete dbOne (some 7) 1 6 = Except.error ApiError.serverError ∧
    (dbOne.progresses.filter (fun p => p.lesson == 1)).length = 0 :=
  ⟨rfl, rfl, by decide⟩

/-- In a table with no duplicate keys, a row whose filter predicate is
false is unreachable by key lookup after filtering. -/
theorem find?_filter_eq_none {α : Type} (l : List α) (idf : α → Nat)
    (p : α → Bool) (hn : (l.map idf).Nodup) (a : α) (ha : a ∈ l)
    (hpa : p a = false) :
    (l.filter p).find? (fun x => idf x == idf a) = none := by
  rw [List.find?_eq_none]
  intro x hx hbeq
  rcases List.mem_filter.1 hx with ⟨hxl, hpx⟩
  have hxa : x = a :=
    List.inj_on_of_nodup_map hn hxl ha (by simpa using hbeq)
  rw [hxa, hpa] at hpx
  exact Bool.false_ne_true hpx

/-- C5: deleting a course cascades.  In any well-keyed store, a successful
`deleteCourse db c = ok db2` leaves the course, every module of the course,
every lesson of those modules, every enrollment of the course and every
progress row of those lessons unreachable (`NotFound`), while entities not
referencing the course survive untouched. -/
theorem C5_delete_course_cascade (db db2 : Db) (c : Nat) (hw : DbWf db)
    (h : deleteCourse db c = .ok db2) :
    retrieveCourse db2 c = .error .notFound ∧
    (∀ m ∈ db.modules, m.course = c → retrieveModule db2 m.id = .error .notFound) ∧
    (∀ l ∈ db.lessons, (∃ m ∈ db.modules, m.id = l.module ∧ m.course = c) →
      retrieveLesson db2 l.id = .error .notFound) ∧
    (∀ e ∈ db.enrollments, e.course = c →
      retrieveEnrollment db2 e.id = .error .notFound) ∧
    (∀ p ∈ db.progresses,
      (∃ l ∈ db.lessons, l.id = p.lesson ∧
        ∃ m ∈ db.modules, m.id = l.module ∧ m.course = c) →
      retrieveProgress db2 p.id = .error .notFound) ∧
    (∀ m ∈ db.modules, m.course ≠ c → m ∈ db2.modules) ∧
    (∀ l ∈ db.lessons, (∀ m ∈ db.modules, m.id = l.module → m.course ≠ c) →
      l ∈ db2.lessons) ∧
    (∀ e ∈ db.enrollments, e.course ≠ c → e ∈ db2.enrollments) ∧
    (∀ p ∈ db.progresses,
      (∀ l ∈ db.lessons, l.id = p.lesson →
        ∀ m ∈ db.modules, m.id = l.module → m.course ≠ c) →
      p ∈ db2.progresses) := by
  obtain ⟨hwc, hwm, hwl, hwe, hwp⟩ := hw
  unfold deleteCourse at h
  split at h
  case isFalse => exact absurd h (by simp)
  case isTrue hex =>
  have hdb2 : db2 = { db with
      courses := db.courses.filter (fun x => x.id != c),
      modules := db.modules.filter (fun m => m.course != c),
      lessons := db.lessons.filter (fun l => !deadModuleB db c l.module),
      enrollments := db.enrollments.filter (fun e => e.course != c),
      progresses := db.progresses.filter (fun p => !deadLessonB db c p.lesson) } := by
    injection h with h2
    exact h2.symm
  subst hdb2
  refine ⟨?_, ?_, ?_, ?_, ?_, ?_, ?_, ?_, ?_⟩
  · unfold retrieveCourse
    have hnone : (db.courses.filter (fun x => x.id != c)).find?
        (fun x => x.id == c) = none := by
      rw [List.find?_eq_none]
      intro x hx
      rcases List.mem_filter.1 hx with ⟨_, hne⟩
      simpa using hne
    rw [hnone]
  · intro m hm hmc
    unfold retrieveModule
    have hnone := find?_filter_eq_none db.modules (fun m => m.id)
      (fun m => m.course != c) hwm m hm (by simp [hmc])
    rw [hnone]
  · intro l hl ⟨m, hm, hmid, hmc⟩
    unfold retrieveLesson
    have hdead : deadModuleB db c l.module = true := by
      unfold deadModuleB
      rw [List.any_eq_true]
      exact ⟨m, hm, by simp [hmid, hmc]⟩
    have hnone := find?_filter_eq_none db.lessons (fun l => l.id)
      (fun l => !deadModuleB db c l.module) hwl l hl (by simp [hdead])
    rw [hnone]
  · intro e he hec
    unfold retrieveEnrollment
    have hnone := find?_filter_eq_none db.enrollments (fun e => e.id)
      (fun e => e.course != c) hwe e he (by simp [hec])
    rw [hnone]
  · intro p hp ⟨l, hl, hlid, m, hm, hmid, hmc⟩
    unfold retrieveProgress
    have hdeadm : deadModuleB db c l.module = true := by
      unfold deadModuleB
      rw [List.any_eq_true]
      exact ⟨m, hm, by simp [hmid, hmc]⟩
    have hdead : deadLessonB db c p.lesson = true := by
      unfold deadLessonB
      rw [List.any_eq_true]
      exact ⟨l, hl, by simp [hlid, hdeadm]⟩
    have hnone := find?_filter_eq_none db.progresses (fun p => p.id)
      (fun p => !deadLessonB db c p.lesson) hwp p hp (by simp [hdead])
    rw [hnone]
  · intro m hm hmc
    exact List.mem_filter.2 ⟨hm, by simpa using hmc⟩
  · intro l hl hno
    refine List.mem_filter.2 ⟨hl, ?_⟩
    have : deadModuleB db c l.module = false := by
      unfold deadModuleB
      rw [List.any_eq_false]
      intro m hm
      simp only [Bool.and_eq_true, beq_iff_eq, not_and]
      intro hmid
      exact hno m hm hmid
    simp [this]
  · intro e he hec
    exact List.mem_filter.2 ⟨he, by simpa using hec⟩
  · intro p hp hno
    refine List.mem_filter.2 ⟨hp, ?_⟩
    have : deadLessonB db c p.lesson = false := by
      unfold deadLessonB
      rw [List.any_eq_false]
      intro l hl
      simp only [Bool.and_eq_true, beq_iff_eq, not_and]
      intro hlid
      have hdm : deadModuleB db c l.module = false := by
        unfold deadModuleB
        rw [List.any_eq_false]
        intro m hm
        simp only [Bool.and_eq_true, beq_iff_eq, not_and]
        intro hmid
        exact hno l hl hlid m hm hmid
      simp [hdm]
    simp [this]

/-- Two courses; course 1 owns modules 1, 2 with lessons 1, 2, 3, an
enrollment and a progress row; course 2 owns module 3 with lesson 4, an
enrollment and a progress row. -/
def dbC5 : Db :=
  { courses := [mkCourse 1 1 0 10, mkCourse 2 2 1 20],
    modules := [mkModule 1 1 0, mkModule 2 1 1, mkModule 3 2 0],
    lessons := [mkLesson 1 1 0, mkLesson 2 1 1, mkLesson 3 2 0, mkLesson 4 3 0],
    enrollments := [{ id := 1, course := 1, user := 7, enrolled_at := 3 },
                    { id := 2, course := 2, user := 7, enrolled_at := 4 }],
    progresses := [{ id := 1, user := some 7, lesson := 1, completed := true,
                     completed_at := some 5, created_at := 5 },
                   { id := 2, user := some 7, lesson := 4, completed := true,
                     completed_at := some 6, created_at := 6 }],
    users := [] }

/-- The store `dbC5` after `deleteCourse dbC5 1`: only course 2 and its subtree. -/
def dbC5post : Db :=
  { courses := [mkCourse 2 2 1 20],
    modules := [mkModule 3 2 0],
    lessons := [mkLesson 4 3 0],
    enrollments := [{ id := 2, course := 2, user := 7, enrolled_at := 4 }],
    progresses := [{ id := 2, user := some 7, lesson := 4, completed := true,
                     completed_at := some 6, created_at := 6 }],
    users := [] }

/-- C5 witness: `C5_delete_course_cascade` on the concrete store `dbC5`,
all hypotheses discharged by computation. -/
theorem C5_delete_course_cascade_witness :
    DbWf dbC5 ∧ deleteCourse dbC5 1 = Except.ok dbC5post ∧
    retrieveCourse dbC5post 1 = Except.error ApiError.notFound ∧
    retrieveModule dbC5post 1 = Except.error ApiError.notFound ∧
    retrieveLesson dbC5post 1 = Except.error ApiError.notFound ∧
    retrieveEnrollment dbC5post 1 = Except.error ApiError.notFound ∧
    retrieveProgress dbC5post 1 = Except.error ApiError.notFound ∧
    mkModule 3 2 0 ∈ dbC5post.modules := by
  have h := C5_delete_course_cascade dbC5 dbC5post 1 (by decide) rfl
  refine ⟨by decide, rfl, h.1, ?_, ?_, ?_, ?_, ?_⟩
  · exact h.2.1 (mkModule 1 1 0) (by decide) rfl
  · exact h.2.2.1 (mkLesson 1 1 0) (by decide)
      ⟨mkModule 1 1 0, by decide, rfl, rfl⟩
  · exact h.2.2.2.1 { id := 1, course := 1, user := 7, enrolled_at := 3 }
      (by decide) rfl
  · exact h.2.2.2.2.1
      { id := 1, user := some 7, lesson := 1, completed := true,
        completed_at := some 5, created_at := 5 } (by decide)
      ⟨mkLesson 1 1 0, by decide, rfl, mkModule 1 1 0, by decide, rfl, rfl⟩
  · exact h.2.2.2.2.2.1 (mkModule 3 2 0) (by decide) (by decide)

/-- The collision loop, started at index `k0` with enough fuel, returns the
first free candidate at or after `k0`. -/
theorem firstFreeAux_eq_of_minimal (base : String) (taken : List String)
    (fuel k0 k : Nat) (hk0 : k0 ≤ k) (hk : k ≤ k0 + fuel)
    (hbelow : ∀ j, k0 ≤ j → j < k → candidateAt base j ∈ taken)
    (hfree : candidateAt base k ∉ taken) :
    firstFreeAux base taken fuel k0 = candidateAt base k := by
  induction fuel generalizing k0 with
  | zero =>
    have hkk : k = k0 := Nat.le_antisymm (by simpa using hk) hk0
    simp only [firstFreeAux, hkk]
  | succ n ih =>
    simp only [firstFreeAux]
    by_cases hc : taken.contains (candidateAt base k0) = true
    · rw [if_pos hc]
      have hmem : candidateAt base k0 ∈ taken := by simpa using hc
      have hlt : k0 < k := by
        rcases Nat.lt_or_ge k0 k with h | h
        · exact h
        · have : k = k0 := Nat.le_antisymm (Nat.le_trans h (Nat.le_refl k0)) hk0
          rw [this] at hfree
          exact absurd hmem hfree
      exact ih (k0 + 1) hlt (by omega)
        (fun j hj1 hj2 => hbelow j (Nat.le_of_succ_le hj1) hj2)
    · rw [if_neg hc]
      have hnot : candidateAt base k0 ∉ taken := by
        intro hmem
        exact hc (by simpa using hmem)
      have hkk : k = k0 := by
        rcases Nat.lt_or_ge k0 k with h | h
        · exact absurd (hbelow k0 (Nat.le_refl k0) h) hnot
        · exact Nat.le_antisymm h hk0
      rw [hkk]

/-- The first module named "Intro", in course 1, holding slug "intro". -/
def mIntro : ModuleRec :=
  { id := 1, course := 1, name := "Intro", slug := "intro",
    description := "", order := 0, created_at := 0, updated_at := 0 }

/-- C6 counterexample: save a fresh module named "Intro" into course 2
while course 1 already holds a module with slug "intro".  The base slug
"intro" is unique within the new module's own uniqueness scope (course 2
has no modules at all), so the claimed scope-aware assignment yields
"intro"; the code's model-global collision check yields "intro-2". -/
theorem C6_slug_scope_counterexample :
    module_slug_save_code [mIntro] 2 "" "Intro" = "intro-2" ∧
    module_slug_save_scoped [mIntro] 2 2 "" "Intro" = "intro" ∧
    ("intro-2" : String) ≠ "intro" := by
  refine ⟨?_, ?_, by decide⟩
  · decide
  · decide

/-- C6 (amended): a non-empty slug is never rewritten; an empty source name
leaves the slug empty; an unset slug becomes the slugified name truncated
to 200 characters, suffixed with `-2`, `-3`, … (smallest first) until it
collides with no slug of the same model — globally across the table, not
merely within the entity's per-parent uniqueness scope; two same-named
entities in the same scope get `x` and `x-2`. -/
theorem C6_slug_assignment :
    (∀ table pk slug name, slug ≠ "" → slug_mixin_save table pk slug name = slug) ∧
    (∀ table pk, slug_mixin_save table pk "" "" = "") ∧
    (∀ taken base, base ∉ taken → assignSlug taken base = base) ∧
    (∀ taken base k, k ≤ taken.length →
      (∀ j, j < k → candidateAt base j ∈ taken) →
      candidateAt base k ∉ taken →
      assignSlug taken base = candidateAt base k) ∧
    module_slug_save_code [] 1 "" "Intro" = "intro" ∧
    module_slug_save_code [mIntro] 2 "" "Intro" = "intro-2" := by
  refine ⟨?_, ?_, ?_, ?_, by decide, by decide⟩
  · intro table pk slug name h
    simp [slug_mixin_save, h]
  · intro table pk
    simp [slug_mixin_save]
  · intro taken base h
    exact firstFreeAux_eq_of_minimal base taken (taken.length + 1) 0 0
      (Nat.le_refl 0) (by omega) (by omega) h
  · intro taken base k hk hbelow hfree
    exact firstFreeAux_eq_of_minimal base taken (taken.length + 1) 0 k
      (Nat.zero_le k) (by omega) (fun j _ hj => hbelow j hj) hfree

/-- C6 witness: every hypothesised clause of `C6_slug_assignment`
discharged on concrete tables. -/
theorem C6_slug_assignment_witness :
    slug_mixin_save [(1, "intro")] 2 "intro-kept" "Other" = "intro-kept" ∧
    assignSlug [] "intro" = "intro" ∧
    assignSlug ["intro", "intro-2"] "intro" = candidateAt "intro" 2 :=
  ⟨C6_slug_assignment.1 [(1, "intro")] 2 "intro-kept" "Other" (by decide),
   C6_slug_assignment.2.2.1 [] "intro" (by decide),
   C6_slug_assignment.2.2.2.1 ["intro", "intro-2"] "intro" 2 (by decide)
     (by decide) (by decide)⟩

/-- One course, one module, one lesson with content and timestamps. -/
def dbC7 : Db :=
  { courses := [mkCourse 1 1 0 1], modules := [mkModule 1 1 0],
    lessons := [{ id := 1, module := 1, name := "L1", slug := "l1",
                  content := "Welcome!", duration_seconds := 90, order := 0,
                  created_at := 3, updated_at := 4 }],
    enrollments := [], progresses := [], users := [] }

/-- C7 counterexample: in the full course shape over `dbC7`, the single
nested lesson is emitted through `LessonSerializer`, so its keys are the
serializer's eight declared fields — `content`, `duration_seconds` and the
timestamps included — not the four fields `id`, `name`, `slug`, `order`
named by the claim. -/
theorem C7_nested_lesson_fields_counterexample :
    moduleNestedLessonKeys dbC7 (mkModule 1 1 0) = [lessonSerializerFields] ∧
    "content" ∈ lessonSerializerFields ∧
    lessonSerializerFields ≠ ["id", "name", "slug", "order"] :=
  ⟨by decide, by decide, by decide⟩

/-- C7 (amended): each nested lesson of the full course shape carries
exactly the eight `LessonSerializer` fields `id`, `name`, `slug`,
`content`, `duration_seconds`, `order`, `created_at`, `updated_at`; the
queryset's `only("id", "name", "slug", "order")` hint names the columns of
the prefetch SQL, not the serialized field set. -/
theorem C7_nested_lesson_fields :
    (∀ l, (serializeLesson l).map (fun kv => kv.1) = lessonSerializerFields) ∧
    (∀ db m ks, ks ∈ moduleNestedLessonKeys db m → ks = lessonSerializerFields) ∧
    (∀ db m, (serializeModule db m).map (fun kv => kv.1) = moduleSerializerFields) ∧
    courseQuerysetOnlyFields = ["id", "name", "slug", "order"] := by
  refine ⟨fun l => rfl, ?_, fun db m => rfl, rfl⟩
  intro db m ks hks
  rcases List.mem_map.1 hks with ⟨l, -, rfl⟩
  rfl

/-- C7 witness: the membership hypothesis of `C7_nested_lesson_fields`
discharged on the concrete store `dbC7`. -/
theorem C7_nested_lesson_fields_witness :
    lessonSerializerFields ∈ moduleNestedLessonKeys dbC7 (mkModule 1 1 0) ∧
    lessonSerializerFields = lessonSerializerFields :=
  ⟨by decide, C7_nested_lesson_fields.2.1 dbC7 (mkModule 1 1 0)
    lessonSerializerFields (by decide)⟩

/-- C8: with a non-empty requested field set the dynamic course shape is
exactly the declared base fields intersected with the request; requesting
`{name, slug}` returns exactly those two; a requested field outside the
allow-list (`created_at`) is silently absent, never exposed. -/
theorem C8_dynamic_field_selection :
    (∀ fs : List String, fs ≠ [] → ∀ f,
      (f ∈ courseDynamicFields (some fs) ↔
        f ∈ courseDynamicBaseFields ∧ f ∈ fs)) ∧
    courseDynamicFields (some ["name", "slug"]) = ["name", "slug"] ∧
    courseDynamicFields (some ["name", "slug", "created_at"]) = ["name", "slug"] ∧
    "created_at" ∉ courseDynamicFields (some ["name", "slug", "created_at"]) := by
  refine ⟨?_, by decide, by decide, by decide⟩
  intro fs hfs f
  have hne : fs.isEmpty = false := by
    cases fs with
    | nil => exact absurd rfl hfs
    | cons a as => rfl
  simp [courseDynamicFields, hne, List.mem_filter]

/-- C8 witness: the intersection clause of `C8_dynamic_field_selection`
instantiated at the request `["name", "slug"]` and the field `"name"`. -/
theorem C8_dynamic_field_selection_witness :
    ("name" ∈ courseDynamicFields (some ["name", "slug"]) ↔
      "name" ∈ courseDynamicBaseFields ∧ "name" ∈ ["name", "slug"]) :=
  C8_dynamic_field_selection.1 ["name", "slug"] (by decide) "name"

/-- C10: a present-but-empty requested field list is falsy in Python
(`if fields:`), so no filtering happens and the dynamic course shape keeps
the whole declared base field set — empty behaves like everything. -/
theorem C10_empty_request_keeps_all_fields :
    courseDynamicFields (some []) = courseDynamicBaseFields ∧
    courseDynamicFields none = courseDynamicBaseFields ∧
    courseDynamicBaseFields = ["id", "name", "slug", "description", "modules"] :=
  ⟨rfl, rfl, rfl⟩

/-- Inserting into a list yields a permutation of consing. -/
theorem insertLe_perm (le : α → α → Bool) (a : α) (l : List α) :
    (insertLe le a l).Perm (a :: l) := by
  induction l with
  | nil => simp [insertLe]
  | cons b bs ih =>
    simp only [insertLe]
    split
    · exact List.Perm.refl _
    · exact (ih.cons b).trans (List.Perm.swap a b bs)

/-- Insertion sort permutes its input. -/
theorem sortLe_perm (le : α → α → Bool) (l : List α) :
    (sortLe le l).Perm l := by
  induction l with
  | nil => simp [sortLe]
  | cons a as ih => exact (insertLe_perm le a (sortLe le as)).trans (ih.cons a)

/-- Insertion keeps a list pairwise-ordered when the comparison is
transitive and total. -/
theorem insertLe_pairwise (le : α → α → Bool)
    (htrans : ∀ a b c, le a b = true → le b c = true → le a c = true)
    (htot : ∀ a b, le a b = true ∨ le b a = true)
    (a : α) (l : List α) (h : l.Pairwise fun x y => le x y = true) :
    (insertLe le a l).Pairwise (fun x y => le x y = true) := by
  induction l with
  | nil => simp [insertLe]
  | cons b bs ih =>
    rcases List.pairwise_cons.1 h with ⟨hb, hbs⟩
    simp only [insertLe]
    split
    case isTrue hab =>
      refine List.pairwise_cons.2 ⟨?_, h⟩
      intro x hx
      rcases List.mem_cons.1 hx with rfl | hx'
      · exact hab
      · exact htrans a b x hab (hb x hx')
    case isFalse hab =>
      have hba : le b a = true := by
        rcases htot a b with h1 | h1
        · exact absurd h1 hab
        · exact h1
      refine List.pairwise_cons.2 ⟨?_, ih hbs⟩
      intro x hx
      rcases List.mem_cons.1 ((insertLe_perm le a bs).mem_iff.1 hx) with rfl | hx'
      · exact hba
      · exact hb x hx'

/-- Insertion sort sorts, for a transitive and total comparison. -/
theorem sortLe_pairwise (le : α → α → Bool)
    (htrans : ∀ a b c, le a b = true → le b c = true → le a c = true)
    (htot : ∀ a b, le a b = true ∨ le b a = true) (l : List α) :
    (sortLe le l).Pairwise (fun x y => le x y = true) := by
  induction l with
  | nil => simp [sortLe]
  | cons a as ih => exact insertLe_pairwise le htrans htot a (sortLe le as) ih

/-- Two courses: course 1 has the smaller order key but the older
`created_at`; course 2 the larger order key but the newer `created_at`. -/
def dbC9 : Db :=
  { courses := [mkCourse 1 1 0 10, mkCourse 2 2 1 20],
    modules := [], lessons := [], enrollments := [], progresses := [],
    users := [] }

/-- C9 counterexample: the default course listing sorts by `-created_at`
(`core/views.py:30`), so on `dbC9` it returns order keys `[1, 0]` — not
ascending by the order key as the claim states for every ordered entity. -/
theorem C9_course_listing_counterexample :
    (listCourses dbC9).map (fun c => c.order) = [1, 0] ∧
    ¬ (listCourses dbC9).Pairwise (fun a b => a.order ≤ b.order) ∧
    courseViewSetDefaultOrdering ≠ moduleViewSetDefaultOrdering := by
  have hlist : listCourses dbC9 = [mkCourse 2 2 1 20, mkCourse 1 1 0 10] := by
    decide
  refine ⟨by rw [hlist]; decide, ?_, by decide⟩
  intro h
  rw [hlist] at h
  have h10 := (List.pairwise_cons.1 h).1 (mkCourse 1 1 0 10) (by decide)
  simp [mkCourse] at h10

/-- C9 (amended): default listing order is view-specific: `Module` and
`Lesson` listings sort ascending by the caller-assigned order key, while
the `Course` listing sorts descending by `created_at`; no deterministic
secondary tie-break is declared anywhere — each listing is some
order-respecting permutation of the table. -/
theorem C9_default_listing_order :
    courseViewSetDefaultOrdering = ["-created_at"] ∧
    moduleViewSetDefaultOrdering = ["order"] ∧
    lessonViewSetDefaultOrdering = ["order"] ∧
    (∀ db, (listModules db).Pairwise (fun a b => a.order ≤ b.order)) ∧
    (∀ db, (listModules db).Perm db.modules) ∧
    (∀ db, (listLessons db).Pairwise (fun a b => a.order ≤ b.order)) ∧
    (∀ db, (listLessons db).Perm db.lessons) ∧
    (∀ db, (listCourses db).Pairwise (fun a b => b.created_at ≤ a.created_at)) ∧
    (∀ db, (listCourses db).Perm db.courses) := by
  have htransN : ∀ x y z : Nat, decide (x ≤ y) = true → decide (y ≤ z) = true →
      decide (x ≤ z) = true := by
    intro x y z h1 h2
    exact decide_eq_true (Nat.le_trans (of_decide_eq_true h1) (of_decide_eq_true h2))
  have htotN : ∀ x y : Nat, decide (x ≤ y) = true ∨ decide (y ≤ x) = true := by
    intro x y
    rcases Nat.le_total x y with h | h
    · exact Or.inl (decide_eq_true h)
    · exact Or.inr (decide_eq_true h)
  refine ⟨rfl, rfl, rfl, ?_, ?_, ?_, ?_, ?_, ?_⟩
  · intro db
    exact (sortLe_pairwise _ (fun a b c => htransN a.order b.order c.order)
      (fun a b => htotN a.order b.order) db.modules).imp
        (fun h => of_decide_eq_true h)
  · intro db
    exact sortLe_perm _ db.modules
  · intro db
    exact (sortLe_pairwise _ (fun a b c => htransN a.order b.order c.order)
      (fun a b => htotN a.order b.order) db.lessons).imp
        (fun h => of_decide_eq_true h)
  · intro db
    exact sortLe_perm _ db.lessons
  · intro db
    exact (sortLe_pairwise _
      (fun a b c h1 h2 => htransN c.created_at b.created_at a.created_at h2 h1)
      (fun a b => htotN b.created_at a.created_at) db.courses).imp
        (fun h => of_decide_eq_true h)
  · intro db
    exact sortLe_perm _ db.courses
